import Mathlib

/-!
Shallow embedding of `src/src/models/sensor.py` (class `RandintGenerator`):
its configuration validation, reconfiguration, reading generation and
command dispatch. The numpy global random source is an external
collaborator; it is modelled by an explicit deterministic state-transition
function (a 64-bit LCG stand-in for MT19937 — the repository's claims
depend only on the source being a deterministic function of its seeded
state and on `randint`'s documented range contract `low <= v < high`).
-/

namespace RandintGen

/-- State of the process-global numpy random source (`np.random`). -/
abbrev RNGState := Nat

/-- One step of the modelled random source (64-bit LCG stand-in). -/
def rngStep (st : RNGState) : RNGState :=
  (st * 6364136223846793005 + 1442695040888963407) % 18446744073709551616

/-- Raw output word drawn from the current source state (upper 32 bits). -/
def rngOut (st : RNGState) : Nat :=
  rngStep st / 4294967296

/-- State of the source right after `np.random.seed(s)`. numpy accepts
seeds in `[0, 2^32)`; the model maps an integer seed into that range the
same way for every caller, so seeding is a function of the seed alone. -/
def seedState (s : Int) : RNGState :=
  rngStep (s % 4294967296).toNat

/-- The eight integer width tags accepted as `dtype` (numpy integer dtypes). -/
inductive DType where
  | int8 | int16 | int32 | int64 | uint8 | uint16 | uint32 | uint64
  deriving DecidableEq

/-- Smallest value representable in the width tag. -/
def dtMin : DType → Int
  | .int8 => -128
  | .int16 => -32768
  | .int32 => -2147483648
  | .int64 => -9223372036854775808
  | .uint8 => 0
  | .uint16 => 0
  | .uint32 => 0
  | .uint64 => 0

/-- Largest value representable in the width tag. -/
def dtMax : DType → Int
  | .int8 => 127
  | .int16 => 32767
  | .int32 => 2147483647
  | .int64 => 9223372036854775807
  | .uint8 => 255
  | .uint16 => 65535
  | .uint32 => 4294967295
  | .uint64 => 18446744073709551615

/-- `valid_dtypes` list from `validate_config` (sensor.py line 87). -/
def validDtypes : List String :=
  ["int8", "int16", "int32", "int64", "uint8", "uint16", "uint32", "uint64"]

/-- `getattr(np, dtype)` resolving a dtype name; any other string fails the
draw (AttributeError / unsupported dtype → GenerationError). -/
def dtypeOfString : String → Option DType
  | "int8" => some .int8
  | "int16" => some .int16
  | "int32" => some .int32
  | "int64" => some .int64
  | "uint8" => some .uint8
  | "uint16" => some .uint16
  | "uint32" => some .uint32
  | "uint64" => some .uint64
  | _ => none

/-- Failure modes of `np.random.randint` as surfaced by `get_readings` /
`generate_batch` (GenerationError in the spec taxonomy). -/
inductive GenErr where
  | lowOutOfBounds
  | highOutOfBounds
  | lowGeHigh
  | negativeSize
  | invalidDtype
  | indexError
  deriving DecidableEq

/-- Draw `n` values uniformly shaped as `low + word % (high - low)`,
advancing the source state once per value (numpy fills arrays from
successive generator outputs). -/
def drawN (low high : Int) : Nat → RNGState → List Int × RNGState
  | 0, st => ([], st)
  | k + 1, st =>
    let v := low + (rngOut st : Int) % (high - low)
    let (vs, st') := drawN low high k (rngStep st)
    (v :: vs, st')

/-- `np.random.randint(low, high, size=n, dtype=dt)`: numpy first checks the
bounds against the dtype's representable range and `low < high`, then the
size, then draws. -/
def randintMany (low high : Int) (dt : DType) (n : Int) (st : RNGState) :
    Except GenErr (List Int × RNGState) :=
  if low < dtMin dt then .error .lowOutOfBounds
  else if high > dtMax dt + 1 then .error .highOutOfBounds
  else if high ≤ low then .error .lowGeHigh
  else if n < 0 then .error .negativeSize
  else .ok (drawN low high n.toNat st)

/-- Scalar `np.random.randint(low, high, dtype=dt)`. -/
def randint1 (low high : Int) (dt : DType) (st : RNGState) :
    Except GenErr (Int × RNGState) :=
  if low < dtMin dt then .error .lowOutOfBounds
  else if high > dtMax dt + 1 then .error .highOutOfBounds
  else if high ≤ low then .error .lowGeHigh
  else .ok (low + (rngOut st : Int) % (high - low), rngStep st)

/-- First-match lookup in an association list (`d[k]` on the model below,
whose key lists are kept duplicate-free). -/
def assocLookup {α : Type} : List (String × α) → String → Option α
  | [], _ => none
  | p :: d, k => if k = p.1 then some p.2 else assocLookup d k

/-- CPython dict insertion `d[k] = v`: an existing key keeps its position
and takes the new value, a new key is appended. (On the duplicate-free key
lists produced by `pyDict` the first occurrence is the only one.) -/
def dictInsert {α : Type} : List (String × α) → String → α → List (String × α)
  | [], k, v => [(k, v)]
  | p :: d, k, v => if p.1 = k then (k, v) :: d else p :: dictInsert d k v

/-- The Python dict built by a comprehension over key/value pairs:
successive insertion into an empty dict. -/
def pyDict {α : Type} (l : List (String × α)) : List (String × α) :=
  l.foldl (fun d p => dictInsert d p.1 p.2) []

/-- Mutable state of a `RandintGenerator` instance plus the global random
source it draws from. -/
structure GenState where
  low : Int
  high : Int
  num_readings : Int
  reading_names : List String
  dtype : String
  seed : Option Int
  rng : RNGState
  deriving DecidableEq

/-- `__init__` defaults (sensor.py lines 29-34), alongside whatever state
the global random source currently has. -/
def initState (r : RNGState) : GenState :=
  { low := 0, high := 100, num_readings := 1, reading_names := ["value"]
    dtype := "int32", seed := none, rng := r }

/-- A raw configuration attribute bag: every recognized key optional.
Numbers arrive as protobuf `number_value` and are truncated with `int(...)`
identically in validation and reconfiguration, so they are carried as `Int`;
`reading_names` is the list of the items' `string_value`s. -/
structure Config where
  low : Option Int := none
  high : Option Int := none
  num_readings : Option Int := none
  reading_names : Option (List String) := none
  dtype : Option String := none
  seed : Option Int := none
  deriving DecidableEq

/-- Third check of `validate_config`: a present `dtype` must be one of the
eight tags. -/
def validateDtype (c : Config) : Except String Unit :=
  match c.dtype with
  | some d => if validDtypes.contains d then .ok () else .error "invalid dtype"
  | none => .ok ()

/-- Second check of `validate_config`: when both `low` and `high` are
present, `low < high` is required. -/
def validateBounds (c : Config) : Except String Unit :=
  match c.low, c.high with
  | some lo, some hi =>
    if hi ≤ lo then .error "low must be less than high" else validateDtype c
  | _, _ => validateDtype c

/-- `RandintGenerator.validate_config` (sensor.py lines 45-91): three
sequential checks, each raising ValueError (ConfigError); each check fires
only when every attribute it reads is present. -/
def validateConfig (c : Config) : Except String Unit :=
  match c.num_readings, c.reading_names with
  | some n, some names =>
    if (names.length : Int) ≠ n then .error "reading_names length mismatch"
    else validateBounds c
  | _, _ => validateBounds c

/-- Default reading names derived when `reading_names` is absent
(sensor.py lines 117-122): `["value"]` for one reading, else
`value_1 .. value_N` from `range(num_readings)`. -/
def defaultNames (n : Int) : List String :=
  if n = 1 then ["value"]
  else (List.range n.toNat).map (fun i => "value_" ++ toString (i + 1))

/-- `RandintGenerator.reconfigure` (sensor.py lines 93-132): every field is
replaced, missing attributes fall back to the hardcoded defaults; a present
`seed` is stored and reseeds the global source immediately, an absent one
clears the stored seed and leaves the source state untouched. -/
def reconfigure (s : GenState) (c : Config) : GenState :=
  let low := c.low.getD 0
  let high := c.high.getD 100
  let n := c.num_readings.getD 1
  let names :=
    match c.reading_names with
    | some ns => ns
    | none => defaultNames n
  let dt := c.dtype.getD "int32"
  match c.seed with
  | some sd =>
    { low := low, high := high, num_readings := n, reading_names := names
      dtype := dt, seed := some sd, rng := seedState sd }
  | none =>
    { low := low, high := high, num_readings := n, reading_names := names
      dtype := dt, seed := none, rng := s.rng }

/-- `RandintGenerator.get_readings` (sensor.py lines 152-187): resolve the
dtype, draw one value (key `reading_names[0]`) or `num_readings` values
(dict comprehension over `zip(reading_names, values)`), and report any
draw failure to the caller. -/
def getReadings (s : GenState) : Except GenErr (List (String × Int) × GenState) :=
  match dtypeOfString s.dtype with
  | none => .error .invalidDtype
  | some dt =>
    if s.num_readings = 1 then
      match randint1 s.low s.high dt s.rng with
      | .error e => .error e
      | .ok (v, st') =>
        match s.reading_names.head? with
        | none => .error .indexError
        | some nm => .ok ([(nm, v)], { s with rng := st' })
    else
      match randintMany s.low s.high dt s.num_readings s.rng with
      | .error e => .error e
      | .ok (vs, st') =>
        .ok (pyDict (s.reading_names.zip vs), { s with rng := st' })

/-- A run of `n` successive `get_readings` calls; a raised draw error does
not advance the instance state. -/
def runReadings : GenState → Nat → List (Except GenErr (List (String × Int)))
  | _, 0 => []
  | s, n + 1 =>
    match getReadings s with
    | .error e => .error e :: runReadings s n
    | .ok (r, s') => .ok r :: runReadings s' n

/-- Values crossing the `do_command` boundary (viam `ValueTypes`: None,
booleans, numbers, strings, lists; structs behave like lists for every
check below and are omitted). -/
inductive Value where
  | vnone : Value
  | vbool : Bool → Value
  | vnum : Int → Value
  | vstr : String → Value
  | vlist : List Value → Value

/-- Python truthiness, as tested by `if not cmd:`. -/
def truthy : Value → Bool
  | .vnone => false
  | .vbool b => b
  | .vnum n => n != 0
  | .vstr s => s ≠ ""
  | .vlist l => !l.isEmpty

/-- Python `cmd == "name"` where `cmd` came over the command map: only a
string value can equal a string. -/
def valueEqStr : Value → String → Bool
  | .vstr t, u => t == u
  | _, _ => false

/-- `isinstance(x, (int, float))` followed by `int(x)`. Python booleans are
instances of `int` (`int(True) = 1`); everything non-numeric yields none. -/
def valueToInt : Value → Option Int
  | .vnum n => some n
  | .vbool b => some (if b then 1 else 0)
  | _ => none

/-- Failure taxonomy of `do_command`: ValueError ↦ ConfigError,
NotImplementedError ↦ UnsupportedCommandError, draw failures ↦
GenerationError. -/
inductive CmdErr where
  | configError : String → CmdErr
  | unsupportedCommand : Value → CmdErr
  | genError : GenErr → CmdErr

/-- Successful `do_command` payloads. -/
inductive Resp where
  | configSnap : Int → Int → Int → List String → String → Option Int → Resp
  | reseeded : Int → Resp
  | batchSingle : List Int → Int → String → Resp
  | batchMulti : List (List (String × Int)) → Int → List String → Resp

/-- Split a flat draw into `rows` rows of `cols` values each (row-major
iteration over a numpy array of shape `(rows, cols)`). -/
def chunkRows {α : Type} : Nat → Nat → List α → List (List α)
  | 0, _, _ => []
  | n + 1, k, l => l.take k :: chunkRows n k (l.drop k)

/-- `RandintGenerator.do_command` (sensor.py lines 189-267): a falsy or
missing `command` value fails as missing; `get_config`, `reseed` and
`generate_batch` are dispatched; anything else raises NotImplementedError.
Error paths return the instance state unchanged (the Python exception
escapes before any mutation). -/
def do_command (s : GenState) (m : List (String × Value)) :
    Except CmdErr Resp × GenState :=
  match assocLookup m "command" with
  | none => (.error (.configError "Missing command field in do_command"), s)
  | some c =>
    if !truthy c then
      (.error (.configError "Missing command field in do_command"), s)
    else if valueEqStr c "get_config" then
      (.ok (.configSnap s.low s.high s.num_readings s.reading_names s.dtype s.seed), s)
    else if valueEqStr c "reseed" then
      match (assocLookup m "seed").getD .vnone with
      | .vnone => (.error (.configError "reseed command requires seed parameter"), s)
      | sv =>
        match valueToInt sv with
        | none => (.error (.configError "seed must be an integer"), s)
        | some n =>
          (.ok (.reseeded n), { s with seed := some n, rng := seedState n })
    else if valueEqStr c "generate_batch" then
      match valueToInt ((assocLookup m "size").getD (.vnum 10)) with
      | none => (.error (.configError "batch size must be a positive integer"), s)
      | some n =>
        if n ≤ 0 then
          (.error (.configError "batch size must be a positive integer"), s)
        else
          match dtypeOfString s.dtype with
          | none => (.error (.genError .invalidDtype), s)
          | some dt =>
            if s.num_readings = 1 then
              match randintMany s.low s.high dt n s.rng with
              | .error e => (.error (.genError e), s)
              | .ok (vs, st') =>
                match s.reading_names.head? with
                | none => (.error (.genError .indexError), s)
                | some nm => (.ok (.batchSingle vs n nm), { s with rng := st' })
            else
              match randintMany s.low s.high dt (n * s.num_readings) s.rng with
              | .error e => (.error (.genError e), s)
              | .ok (vs, st') =>
                (.ok (.batchMulti
                  ((chunkRows n.toNat s.num_readings.toNat vs).map
                    (fun row => pyDict (s.reading_names.zip row))) n s.reading_names),
                 { s with rng := st' })
    else (.error (.unsupportedCommand c), s)

/-- `get_geometries` (sensor.py lines 269-277): always the empty list. -/
def getGeometries (_s : GenState) : List Unit := []

/-- Generator states reachable by construction and reconfigurations whose
configurations pass validation and supply `low` and `high` together (both
present or both absent). -/
inductive ReachableLH : GenState → Prop where
  | init (r : RNGState) : ReachableLH (initState r)
  | step {s : GenState} {c : Config} : ReachableLH s →
      validateConfig c = .ok () → c.low.isSome = c.high.isSome →
      ReachableLH (reconfigure s c)

/-- Generator states reachable by construction and reconfigurations whose
configurations pass validation, supply `num_readings` whenever they supply
`reading_names`, and never carry a negative `num_readings`. -/
inductive ReachableNR : GenState → Prop where
  | init (r : RNGState) : ReachableNR (initState r)
  | step {s : GenState} {c : Config} : ReachableNR s →
      validateConfig c = .ok () →
      (c.reading_names.isSome → c.num_readings.isSome) →
      (∀ n : Int, c.num_readings = some n → 0 ≤ n) →
      ReachableNR (reconfigure s c)

end RandintGen

namespace RandintGen

/-! ### Helper lemmas: draws -/

theorem drawN_succ (low high : Int) (k : Nat) (st : RNGState) :
    drawN low high (k + 1) st =
      ((low + (rngOut st : Int) % (high - low)) :: (drawN low high k (rngStep st)).1,
        (drawN low high k (rngStep st)).2) := rfl

theorem drawN_fst_length (low high : Int) (n : Nat) (st : RNGState) :
    (drawN low high n st).1.length = n := by
  induction n generalizing st with
  | zero => rfl
  | succ k ih => rw [drawN_succ]; simp [ih]

theorem single_draw_bounds (low high : Int) (st : RNGState) (h : low < high) :
    low ≤ low + (rngOut st : Int) % (high - low) ∧
      low + (rngOut st : Int) % (high - low) < high := by
  have hpos : 0 < high - low := by omega
  have h1 : 0 ≤ (rngOut st : Int) % (high - low) :=
    Int.emod_nonneg _ (by omega)
  have h2 : (rngOut st : Int) % (high - low) < high - low :=
    Int.emod_lt_of_pos _ hpos
  omega

theorem drawN_fst_bounds (low high : Int) (n : Nat) (st : RNGState)
    (h : low < high) :
    ∀ v ∈ (drawN low high n st).1, low ≤ v ∧ v < high := by
  induction n generalizing st with
  | zero => intro v hv; simp [drawN] at hv
  | succ k ih =>
    intro v hv
    rw [drawN_succ] at hv
    rcases List.mem_cons.1 hv with rfl | hv
    · exact single_draw_bounds low high st h
    · exact ih (rngStep st) v hv

theorem randintMany_ok (low high : Int) (dt : DType) (n : Int) (st : RNGState)
    (vs : List Int) (st' : RNGState)
    (h : randintMany low high dt n st = .ok (vs, st')) :
    low < high ∧ 0 ≤ n ∧ vs = (drawN low high n.toNat st).1 ∧
      st' = (drawN low high n.toNat st).2 := by
  unfold randintMany at h
  split at h
  · exact absurd h (by simp)
  · split at h
    · exact absurd h (by simp)
    · split at h
      · exact absurd h (by simp)
      · split at h
        · exact absurd h (by simp)
        · rename_i h1 h2 h3 h4
          refine ⟨by omega, by omega, ?_⟩
          have := Except.ok.inj h
          exact ⟨congrArg Prod.fst this.symm, congrArg Prod.snd this.symm⟩

theorem randint1_ok (low high : Int) (dt : DType) (st : RNGState)
    (v : Int) (st' : RNGState)
    (h : randint1 low high dt st = .ok (v, st')) :
    low < high ∧ low ≤ v ∧ v < high ∧ st' = rngStep st := by
  unfold randint1 at h
  split at h
  · exact absurd h (by simp)
  · split at h
    · exact absurd h (by simp)
    · split at h
      · exact absurd h (by simp)
      · rename_i h1 h2 h3
        have := Except.ok.inj h
        have hv : v = low + (rngOut st : Int) % (high - low) :=
          (congrArg Prod.fst this).symm
        have hlt : low < high := by omega
        rcases single_draw_bounds low high st hlt with ⟨b1, b2⟩
        exact ⟨hlt, hv ▸ b1, hv ▸ b2, (congrArg Prod.snd this).symm⟩

end RandintGen

namespace RandintGen

/-! ### Helper lemmas: the dict model -/

theorem keys_dictInsert {α : Type} (d : List (String × α)) (k : String) (v : α)
    (k' : String) :
    k' ∈ (dictInsert d k v).map Prod.fst ↔ k' = k ∨ k' ∈ d.map Prod.fst := by
  induction d with
  | nil => simp [dictInsert]
  | cons p d ih =>
    simp only [dictInsert]
    split
    · rename_i hpk
      subst hpk
      simp
    · rename_i hpk
      simp [ih]
      tauto

theorem nodup_keys_dictInsert {α : Type} (d : List (String × α)) (k : String)
    (v : α) (h : (d.map Prod.fst).Nodup) :
    ((dictInsert d k v).map Prod.fst).Nodup := by
  induction d with
  | nil => simp [dictInsert]
  | cons p d ih =>
    rw [List.map_cons, List.nodup_cons] at h
    simp only [dictInsert]
    split
    · rename_i hpk
      subst hpk
      simp only [List.map_cons, List.nodup_cons]
      exact h
    · rename_i hpk
      simp only [List.map_cons, List.nodup_cons]
      refine ⟨?_, ih h.2⟩
      intro hmem
      rcases (keys_dictInsert d k v p.1).1 hmem with rfl | hmem
      · exact hpk rfl
      · exact h.1 hmem

theorem assocLookup_dictInsert {α : Type} (d : List (String × α)) (k : String)
    (v : α) (k' : String) :
    assocLookup (dictInsert d k v) k' =
      if k' = k then some v else assocLookup d k' := by
  induction d with
  | nil => simp [dictInsert, assocLookup]
  | cons p d ih =>
    simp only [dictInsert]
    split
    · rename_i hpk
      subst hpk
      by_cases hk : k' = p.1
      · simp [assocLookup, hk]
      · simp [assocLookup, hk]
    · rename_i hpk
      by_cases hk : k' = p.1
      · have hkk : ¬ k' = k := fun hh => hpk (hk.symm.trans hh)
        simp [assocLookup, hk, hkk, hpk]
      · simp [assocLookup, hk, ih]

theorem mem_dictInsert {α : Type} (d : List (String × α)) (k : String) (v : α)
    (p : String × α) (h : p ∈ dictInsert d k v) : p = (k, v) ∨ p ∈ d := by
  induction d with
  | nil => simp [dictInsert] at h; exact Or.inl h
  | cons q d ih =>
    simp only [dictInsert] at h
    split at h
    · rcases List.mem_cons.1 h with rfl | h
      · exact Or.inl rfl
      · exact Or.inr (List.mem_cons_of_mem q h)
    · rcases List.mem_cons.1 h with rfl | h
      · exact Or.inr (List.mem_cons_self p d)
      · rcases ih h with h' | h'
        · exact Or.inl h'
        · exact Or.inr (List.mem_cons_of_mem q h')

theorem pyDict_append {α : Type} (l : List (String × α)) (p : String × α) :
    pyDict (l ++ [p]) = dictInsert (pyDict l) p.1 p.2 := by
  simp [pyDict, List.foldl_append]

theorem nodup_keys_pyDict {α : Type} (l : List (String × α)) :
    ((pyDict l).map Prod.fst).Nodup := by
  induction l using List.reverseRecOn with
  | nil => simp [pyDict]
  | append_singleton l p ih =>
    rw [pyDict_append]
    exact nodup_keys_dictInsert _ _ _ ih

theorem mem_keys_pyDict {α : Type} (l : List (String × α)) (k : String) :
    k ∈ (pyDict l).map Prod.fst ↔ k ∈ l.map Prod.fst := by
  induction l using List.reverseRecOn with
  | nil => simp [pyDict]
  | append_singleton l p ih =>
    rw [pyDict_append, keys_dictInsert]
    simp [ih]
    tauto

theorem assocLookup_pyDict {α : Type} (l : List (String × α)) (k : String) :
    assocLookup (pyDict l) k = assocLookup l.reverse k := by
  induction l using List.reverseRecOn with
  | nil => simp [pyDict]
  | append_singleton l p ih =>
    rw [pyDict_append, assocLookup_dictInsert, List.reverse_append]
    simp [assocLookup, ih]

theorem mem_pyDict {α : Type} (l : List (String × α)) (p : String × α)
    (h : p ∈ pyDict l) : p ∈ l := by
  induction l using List.reverseRecOn with
  | nil => simp [pyDict] at h
  | append_singleton l q ih =>
    rw [pyDict_append] at h
    rcases mem_dictInsert _ _ _ _ h with rfl | h'
    · simp
    · exact List.mem_append_left _ (ih h')

theorem length_pyDict_eq_dedup {α : Type} (l : List (String × α)) :
    (pyDict l).length = (l.map Prod.fst).dedup.length := by
  calc (pyDict l).length
      = ((pyDict l).map Prod.fst).length := (List.length_map _ _).symm
    _ = ((pyDict l).map Prod.fst).toFinset.card :=
        (List.toFinset_card_of_nodup (nodup_keys_pyDict l)).symm
    _ = (l.map Prod.fst).toFinset.card := by
        congr 1
        ext k
        simpa using mem_keys_pyDict l k
    _ = (l.map Prod.fst).dedup.length := List.card_toFinset _

theorem dedup_length_lt_of_not_nodup {α : Type} [DecidableEq α] (l : List α)
    (h : ¬ l.Nodup) : l.dedup.length < l.length := by
  rcases Nat.lt_or_ge l.dedup.length l.length with hlt | hge
  · exact hlt
  · exfalso
    have hsub := List.dedup_sublist l
    have hle := hsub.length_le
    have heq : l.dedup = l := hsub.eq_of_length (Nat.le_antisymm hle hge)
    exact h (heq ▸ l.nodup_dedup)

end RandintGen

namespace RandintGen

/-! ### Helper lemmas: validation and reconfiguration -/

theorem validateBounds_ok (c : Config) (lo hi : Int)
    (h : validateBounds c = .ok ()) (hl : c.low = some lo)
    (hh : c.high = some hi) : lo < hi := by
  rcases c with ⟨clo, chi, cn, cns, cdt, csd⟩
  simp only at hl hh
  subst hl
  subst hh
  simp only [validateBounds] at h
  split at h
  · simp at h
  · omega

theorem validateConfig_ok_toBounds (c : Config)
    (h : validateConfig c = .ok ()) : validateBounds c = .ok () := by
  unfold validateConfig at h
  split at h
  · split at h
    · simp at h
    · exact h
  · exact h

theorem validateConfig_ok_bounds (c : Config) (lo hi : Int)
    (h : validateConfig c = .ok ()) (hl : c.low = some lo)
    (hh : c.high = some hi) : lo < hi :=
  validateBounds_ok c lo hi (validateConfig_ok_toBounds c h) hl hh

theorem validateConfig_ok_names (c : Config) (n : Int) (ns : List String)
    (h : validateConfig c = .ok ()) (hn : c.num_readings = some n)
    (hns : c.reading_names = some ns) : (ns.length : Int) = n := by
  rcases c with ⟨clo, chi, cn, cns, cdt, csd⟩
  simp only at hn hns
  subst hn
  subst hns
  simp only [validateConfig] at h
  split at h
  · simp at h
  · omega

theorem reconfigure_low (s : GenState) (c : Config) :
    (reconfigure s c).low = c.low.getD 0 := by
  cases hs : c.seed <;> simp [reconfigure, hs]

theorem reconfigure_high (s : GenState) (c : Config) :
    (reconfigure s c).high = c.high.getD 100 := by
  cases hs : c.seed <;> simp [reconfigure, hs]

theorem reconfigure_num (s : GenState) (c : Config) :
    (reconfigure s c).num_readings = c.num_readings.getD 1 := by
  cases hs : c.seed <;> simp [reconfigure, hs]

theorem reconfigure_names (s : GenState) (c : Config) :
    (reconfigure s c).reading_names =
      match c.reading_names with
      | some ns => ns
      | none => defaultNames (c.num_readings.getD 1) := by
  cases hs : c.seed <;> simp [reconfigure, hs]

theorem reconfigure_dtype (s : GenState) (c : Config) :
    (reconfigure s c).dtype = c.dtype.getD "int32" := by
  cases hs : c.seed <;> simp [reconfigure, hs]

theorem reconfigure_seed (s : GenState) (c : Config) :
    (reconfigure s c).seed = c.seed := by
  cases hs : c.seed <;> simp [reconfigure, hs]

theorem reconfigure_rng (s : GenState) (c : Config) :
    (reconfigure s c).rng =
      match c.seed with
      | some sd => seedState sd
      | none => s.rng := by
  cases hs : c.seed <;> simp [reconfigure, hs]

theorem defaultNames_length_int (n : Int) (h : 0 ≤ n) :
    ((defaultNames n).length : Int) = n := by
  unfold defaultNames
  split
  · rename_i h1
    simp [h1]
  · simp [Int.toNat_of_nonneg h]

end RandintGen

namespace RandintGen

/-! ### Helper lemmas: readings -/

theorem getReadings_ok (s : GenState) (r : List (String × Int)) (s' : GenState)
    (h : getReadings s = .ok (r, s')) :
    s.low < s.high ∧
    (∀ p ∈ r, s.low ≤ p.2 ∧ p.2 < s.high) ∧
    (s.num_readings = 1 →
      ∃ nm v, s.reading_names.head? = some nm ∧ r = [(nm, v)]) ∧
    (s.num_readings ≠ 1 →
      r = pyDict (s.reading_names.zip
        (drawN s.low s.high s.num_readings.toNat s.rng).1)) := by
  unfold getReadings at h
  split at h
  · simp at h
  · rename_i dt hdt
    split at h
    · rename_i hone
      split at h
      · simp at h
      · rename_i v st1 hr1
        split at h
        · simp at h
        · rename_i nm hnm
          rcases Except.ok.inj h with h'
          have hr : r = [(nm, v)] := (congrArg Prod.fst h').symm
          rcases randint1_ok s.low s.high dt s.rng v st1 hr1 with
            ⟨hlt, hb1, hb2, _⟩
          refine ⟨hlt, ?_, ?_, ?_⟩
          · intro p hp
            rw [hr] at hp
            rcases List.mem_singleton.1 hp with rfl
            exact ⟨hb1, hb2⟩
          · intro _
            exact ⟨nm, v, hnm, hr⟩
          · intro hne
            exact absurd hone hne
    · rename_i hone
      split at h
      · simp at h
      · rename_i vs st1 hr1
        rcases Except.ok.inj h with h'
        have hr : r = pyDict (s.reading_names.zip vs) :=
          (congrArg Prod.fst h').symm
        rcases randintMany_ok s.low s.high dt s.num_readings s.rng vs st1
            hr1 with ⟨hlt, hn0, hvs, _⟩
        refine ⟨hlt, ?_, ?_, ?_⟩
        · intro p hp
          rw [hr] at hp
          have hz := mem_pyDict _ _ hp
          have hv2 : p.2 ∈ vs := by
            rcases p with ⟨pk, pv⟩
            exact (List.of_mem_zip hz).2
          rw [hvs] at hv2
          exact drawN_fst_bounds s.low s.high _ s.rng hlt p.2 hv2
        · intro h1
          exact absurd h1 hone
        · intro _
          rw [hr, hvs]
end RandintGen

namespace RandintGen

/-! ### Helper lemmas: command dispatch -/

theorem do_command_reseed (s : GenState) (m : List (String × Value)) (v : Int)
    (hc : assocLookup m "command" = some (.vstr "reseed"))
    (hs : assocLookup m "seed" = some (.vnum v)) :
    do_command s m =
      (.ok (.reseeded v), { s with seed := some v, rng := seedState v }) := by
  unfold do_command
  rw [hc, hs]
  simp [truthy, valueEqStr, valueToInt]

theorem do_command_unsupported (s : GenState) (m : List (String × Value))
    (name : String) (hne : name ≠ "")
    (h1 : name ≠ "get_config") (h2 : name ≠ "reseed")
    (h3 : name ≠ "generate_batch")
    (hc : assocLookup m "command" = some (.vstr name)) :
    do_command s m = (.error (.unsupportedCommand (.vstr name)), s) := by
  unfold do_command
  rw [hc]
  simp [truthy, valueEqStr, hne, h1, h2, h3]

theorem do_command_generate_batch (s : GenState) (m : List (String × Value))
    (hc : assocLookup m "command" = some (.vstr "generate_batch")) :
    do_command s m =
      (match valueToInt ((assocLookup m "size").getD (.vnum 10)) with
      | none => (.error (.configError "batch size must be a positive integer"), s)
      | some n =>
        if n ≤ 0 then
          (.error (.configError "batch size must be a positive integer"), s)
        else
          match dtypeOfString s.dtype with
          | none => (.error (.genError .invalidDtype), s)
          | some dt =>
            if s.num_readings = 1 then
              match randintMany s.low s.high dt n s.rng with
              | .error e => (.error (.genError e), s)
              | .ok (vs, st') =>
                match s.reading_names.head? with
                | none => (.error (.genError .indexError), s)
                | some nm => (.ok (.batchSingle vs n nm), { s with rng := st' })
            else
              match randintMany s.low s.high dt (n * s.num_readings) s.rng with
              | .error e => (.error (.genError e), s)
              | .ok (vs, st') =>
                (.ok (.batchMulti
                  ((chunkRows n.toNat s.num_readings.toNat vs).map
                    (fun row => pyDict (s.reading_names.zip row))) n s.reading_names),
                 { s with rng := st' })) := by
  unfold do_command
  rw [hc]
  simp [truthy, valueEqStr]

theorem chunkRows_length {α : Type} (n k : Nat) (l : List α) :
    (chunkRows n k l).length = n := by
  induction n generalizing l with
  | zero => rfl
  | succ j ih => simp [chunkRows, ih]

end RandintGen

namespace RandintGen

/-! ### Claim theorems -/

/-- C1: for every configuration accepted by validation, every value returned
by `get_readings` satisfies `low ≤ value < high` for each of the
`num_readings` channels, and when `num_readings == 1` the single value is
keyed by `reading_names[0]`. -/
theorem c1_readings_within_bounds (s0 : GenState) (c : Config)
    (_hv : validateConfig c = .ok ()) (r : List (String × Int)) (s' : GenState)
    (h : getReadings (reconfigure s0 c) = .ok (r, s')) :
    (∀ p ∈ r, (reconfigure s0 c).low ≤ p.2 ∧ p.2 < (reconfigure s0 c).high) ∧
    ((reconfigure s0 c).num_readings = 1 →
      ∃ nm v, (reconfigure s0 c).reading_names.head? = some nm ∧
        r = [(nm, v)]) := by
  rcases getReadings_ok _ r s' h with ⟨_, hb, h1, _⟩
  exact ⟨hb, h1⟩

/-- C1 witness: the default configuration, drawn from source state 0,
yields the single reading `{"value": 14}` with `0 ≤ 14 < 100`. -/
theorem c1_witness :
    validateConfig {} = .ok () ∧
    ((∀ p ∈ ([("value", 14)] : List (String × Int)),
        (reconfigure (initState 0) {}).low ≤ p.2 ∧
          p.2 < (reconfigure (initState 0) {}).high) ∧
      ((reconfigure (initState 0) {}).num_readings = 1 →
        ∃ nm v, (reconfigure (initState 0) {}).reading_names.head? = some nm ∧
          ([("value", 14)] : List (String × Int)) = [(nm, v)])) :=
  ⟨rfl, c1_readings_within_bounds (initState 0) {} rfl [("value", 14)]
    { low := 0, high := 100, num_readings := 1, reading_names := ["value"],
      dtype := "int32", seed := none, rng := 1442695040888963407 } rfl⟩

/-- C2 counterexample: the configuration `{low: 150}` (no `high`) passes
`validate_config` — the bounds check fires only when both attributes are
present — yet the reconfigured state has `low = 150`, `high = 100`, so the
claimed invariant `low < high` fails in a reachable state. -/
theorem c2_counterexample :
    validateConfig { low := some 150 } = .ok () ∧
    ¬ ((reconfigure (initState 0) { low := some 150 }).low <
        (reconfigure (initState 0) { low := some 150 }).high) := by
  exact ⟨rfl, by decide⟩

/-- C2 (amended): in every state reachable by construction followed by
reconfigurations that pass `validate_config` and supply `low` and `high`
together (both present or both absent), the stored bounds satisfy
`low < high`. -/
theorem c2_bounds_invariant (s : GenState) (h : ReachableLH s) :
    s.low < s.high := by
  induction h with
  | init r => norm_num [initState]
  | step hs hval hpair ih =>
    rename_i s' c
    rw [reconfigure_low, reconfigure_high]
    cases hlo : c.low with
    | none =>
      cases hhi : c.high with
      | none => norm_num
      | some hi => rw [hlo, hhi] at hpair; simp at hpair
    | some lo =>
      cases hhi : c.high with
      | none => rw [hlo, hhi] at hpair; simp at hpair
      | some hi =>
        have hb := validateConfig_ok_bounds c lo hi hval hlo hhi
        simpa using hb

/-- C2 witness: after reconfiguring with `{low: 5, high: 10}` the invariant
holds concretely. -/
theorem c2_bounds_invariant_witness :
    (reconfigure (initState 0) { low := some 5, high := some 10 }).low <
      (reconfigure (initState 0) { low := some 5, high := some 10 }).high :=
  c2_bounds_invariant _ (ReachableLH.step (ReachableLH.init 0) rfl rfl)

/-- C3 counterexample: the configuration `{reading_names: ["a","b"]}` (no
`num_readings`) passes `validate_config` — the length check fires only when
both attributes are present — yet the reconfigured state has
`num_readings = 1` (default) and two reading names. -/
theorem c3_counterexample :
    validateConfig { reading_names := some ["a", "b"] } = .ok () ∧
    ¬ (((reconfigure (initState 0)
          { reading_names := some ["a", "b"] }).reading_names.length : Int) =
        (reconfigure (initState 0)
          { reading_names := some ["a", "b"] }).num_readings) := by
  exact ⟨rfl, by decide⟩

/-- C3 (amended): in every state reachable by construction followed by
reconfigurations that pass `validate_config`, supply `num_readings` whenever
they supply `reading_names`, and never carry a negative `num_readings`, the
length of `reading_names` equals `num_readings`. -/
theorem c3_names_invariant (s : GenState) (h : ReachableNR s) :
    (s.reading_names.length : Int) = s.num_readings := by
  induction h with
  | init r => simp [initState]
  | step hs hval himp hnn ih =>
    rename_i s' c
    rw [reconfigure_names, reconfigure_num]
    cases hns : c.reading_names with
    | some ns =>
      have hnum : c.num_readings.isSome := himp (by simp [hns])
      obtain ⟨n, hn⟩ := Option.isSome_iff_exists.1 hnum
      have hlen := validateConfig_ok_names c n ns hval hn hns
      simp [hn]
      omega
    | none =>
      cases hn : c.num_readings with
      | none => simp [defaultNames]
      | some n =>
        have h0 : 0 ≤ n := hnn n hn
        simpa using defaultNames_length_int n h0

/-- C3 witness: after reconfiguring with `{num_readings: 2}` the derived
names have length 2. -/
theorem c3_names_invariant_witness :
    (((reconfigure (initState 0)
        { num_readings := some 2 }).reading_names.length : Int)) =
      (reconfigure (initState 0) { num_readings := some 2 }).num_readings :=
  c3_names_invariant _ (ReachableNR.step (ReachableNR.init 0) rfl
    (by decide) (by intro n hn; injection hn with h2; omega))

end RandintGen

namespace RandintGen

/-- C4: two runs over identically configured generators that reseed with the
same seed and then draw the same number of readings produce identical
sequences, whatever the prior seed or random-source state of either run. -/
theorem c4_reseed_deterministic (s1 s2 : GenState) (m : List (String × Value))
    (v : Int) (n : Nat)
    (hc : assocLookup m "command" = some (.vstr "reseed"))
    (hs : assocLookup m "seed" = some (.vnum v))
    (h1 : s1.low = s2.low) (h2 : s1.high = s2.high)
    (h3 : s1.num_readings = s2.num_readings)
    (h4 : s1.reading_names = s2.reading_names) (h5 : s1.dtype = s2.dtype) :
    runReadings (do_command s1 m).2 n = runReadings (do_command s2 m).2 n := by
  rw [do_command_reseed s1 m v hc hs, do_command_reseed s2 m v hc hs]
  have he : ({ s1 with seed := some v, rng := seedState v } : GenState) =
      { s2 with seed := some v, rng := seedState v } := by
    cases s1
    cases s2
    simp_all
  rw [he]

/-- C4 witness: a fresh generator and one with a stale seed and a different
source state agree on two draws after reseeding with 12. -/
theorem c4_witness :
    runReadings (do_command (initState 0)
      [("command", .vstr "reseed"), ("seed", .vnum 12)]).2 2 =
    runReadings (do_command
      (⟨0, 100, 1, ["value"], "int32", some 3, 42⟩ : GenState)
      [("command", .vstr "reseed"), ("seed", .vnum 12)]).2 2 :=
  c4_reseed_deterministic _ _ _ 12 2 rfl rfl rfl rfl rfl rfl rfl

/-- C6: reconfiguring without a `seed` attribute clears the stored seed but
leaves the random source's state untouched, while a present `seed` in a
configuration or a `reseed` command re-initializes the source from the seed. -/
theorem c6_seed_frame (s : GenState) (c : Config) (m : List (String × Value))
    (v : Int) :
    (c.seed = none →
      (reconfigure s c).seed = none ∧ (reconfigure s c).rng = s.rng) ∧
    (c.seed = some v → (reconfigure s c).rng = seedState v) ∧
    (assocLookup m "command" = some (.vstr "reseed") →
      assocLookup m "seed" = some (.vnum v) →
      (do_command s m).2.rng = seedState v ∧ (do_command s m).2.seed = some v) := by
  refine ⟨?_, ?_, ?_⟩
  · intro h
    constructor
    · rw [reconfigure_seed, h]
    · rw [reconfigure_rng, h]
  · intro h
    rw [reconfigure_rng, h]
  · intro h1 h2
    rw [do_command_reseed s m v h1 h2]
    exact ⟨rfl, rfl⟩

/-- C6 witness: concretely, reconfiguring a seeded generator with
`{low: 1}` keeps source state 7 and clears the seed, and reseeding with 5
re-initializes the source. -/
theorem c6_witness :
    ((reconfigure (initState 7) { low := some 1 }).seed = none ∧
      (reconfigure (initState 7) { low := some 1 }).rng = (initState 7).rng) ∧
    (do_command (initState 7)
        [("command", .vstr "reseed"), ("seed", .vnum 5)]).2.rng = seedState 5 :=
  ⟨(c6_seed_frame (initState 7) { low := some 1 }
      [("command", .vstr "reseed"), ("seed", .vnum 5)] 5).1 rfl,
    ((c6_seed_frame (initState 7) { low := some 1 }
      [("command", .vstr "reseed"), ("seed", .vnum 5)] 5).2.2 rfl rfl).1⟩

/-- C7: a reconfiguration without `reading_names` derives the stored names
from `num_readings`: `["value"]` when it resolves to 1, and
`["value_1", ..., "value_N"]` when it is `N > 1`. -/
theorem c7_default_names (s : GenState) (c : Config)
    (h : c.reading_names = none) :
    (c.num_readings.getD 1 = 1 → (reconfigure s c).reading_names = ["value"]) ∧
    (∀ n : Int, c.num_readings = some n → 1 < n →
      (reconfigure s c).reading_names =
        (List.range n.toNat).map (fun i => "value_" ++ toString (i + 1))) := by
  constructor
  · intro h1
    rw [reconfigure_names]
    simp [h, h1, defaultNames]
  · intro n hn hlt
    have hne : n ≠ 1 := by omega
    rw [reconfigure_names]
    simp [h, hn, defaultNames, hne]

/-- C7 witness: `{num_readings: 3}` with no names yields
`["value_1","value_2","value_3"]`. -/
theorem c7_witness :
    (reconfigure (initState 0) { num_readings := some 3 }).reading_names =
      ["value_1", "value_2", "value_3"] := by
  have h := (c7_default_names (initState 0) { num_readings := some 3 } rfl).2
    3 rfl (by norm_num)
  rw [h]
  rfl

/-- C8 (amended): every non-empty command name outside
`{get_config, reseed, generate_batch}` fails with UnsupportedCommandError,
regardless of the other parameters, and leaves the generator state
unchanged. (The empty command name instead fails the missing-command check,
see the counterexample.) -/
theorem c8_unknown_command (s : GenState) (m : List (String × Value))
    (name : String) (hne : name ≠ "")
    (h1 : name ≠ "get_config") (h2 : name ≠ "reseed")
    (h3 : name ≠ "generate_batch")
    (hc : assocLookup m "command" = some (.vstr name)) :
    do_command s m = (.error (.unsupportedCommand (.vstr name)), s) :=
  do_command_unsupported s m name hne h1 h2 h3 hc

/-- C8 counterexample: `""` is a command name outside the supported set, yet
`do_command` fails with the missing-command ConfigError, not with
UnsupportedCommandError. -/
theorem c8_counterexample :
    (do_command (initState 0) [("command", .vstr "")]).1 =
      .error (.configError "Missing command field in do_command") ∧
    (∀ w : Value, (do_command (initState 0) [("command", .vstr "")]).1 ≠
      .error (.unsupportedCommand w)) ∧
    "" ≠ "get_config" ∧ "" ≠ "reseed" ∧ "" ≠ "generate_batch" := by
  refine ⟨rfl, ?_, by decide, by decide, by decide⟩
  intro w h
  rw [show (do_command (initState 0) [("command", .vstr "")]).1 =
      .error (.configError "Missing command field in do_command") from rfl] at h
  exact CmdErr.noConfusion (Except.error.inj h)

/-- C8 witness: the unknown command `"foo"` with an extra parameter fails
as unsupported and leaves the state unchanged. -/
theorem c8_witness :
    do_command (initState 0) [("command", .vstr "foo"), ("x", .vnum 3)] =
      (.error (.unsupportedCommand (.vstr "foo")), initState 0) :=
  c8_unknown_command (initState 0) [("command", .vstr "foo"), ("x", .vnum 3)]
    "foo" (by decide) (by decide) (by decide) (by decide) rfl

/-- C10: a parameter mapping with no `"command"` key, or with `"command"`
bound to the empty string, fails with the missing-parameter ConfigError —
not with UnsupportedCommandError — and leaves the generator state
unchanged. -/
theorem c10_missing_command (s : GenState) (m : List (String × Value))
    (h : assocLookup m "command" = none ∨
      assocLookup m "command" = some (.vstr "")) :
    do_command s m =
      (.error (.configError "Missing command field in do_command"), s) := by
  unfold do_command
  rcases h with h | h
  · rw [h]
  · rw [h]
    simp [truthy]

/-- C10 witness: the empty mapping and an empty-string command both fail as
missing. -/
theorem c10_witness :
    do_command (initState 0) [] =
      (.error (.configError "Missing command field in do_command"),
        initState 0) :=
  c10_missing_command (initState 0) [] (Or.inl rfl)

end RandintGen

namespace RandintGen

/-- C5: `generate_batch` resolves a missing `size` to the default 10, fails
with ConfigError when the size is non-numeric (in the code's sense of
`isinstance(x, (int, float))`) or `≤ 0`, leaving the state unchanged; on
success with `num_readings == 1` it returns exactly `size` integers with
the single reading name and the batch size, and otherwise exactly `size`
name-to-integer mappings with the size and the list of reading names. -/
theorem c5_generate_batch (s : GenState) (m : List (String × Value))
    (hc : assocLookup m "command" = some (.vstr "generate_batch")) :
    (assocLookup m "size" = none →
      valueToInt ((assocLookup m "size").getD (.vnum 10)) = some 10) ∧
    (valueToInt ((assocLookup m "size").getD (.vnum 10)) = none →
      do_command s m =
        (.error (.configError "batch size must be a positive integer"), s)) ∧
    (∀ sz : Int, valueToInt ((assocLookup m "size").getD (.vnum 10)) = some sz →
      sz ≤ 0 →
      do_command s m =
        (.error (.configError "batch size must be a positive integer"), s)) ∧
    (∀ sz : Int, valueToInt ((assocLookup m "size").getD (.vnum 10)) = some sz →
      0 < sz → ∀ resp s', do_command s m = (.ok resp, s') →
      (s.num_readings = 1 →
        ∃ b nm, s.reading_names.head? = some nm ∧
          resp = .batchSingle b sz nm ∧ (b.length : Int) = sz) ∧
      (s.num_readings ≠ 1 →
        ∃ rows, resp = .batchMulti rows sz s.reading_names ∧
          (rows.length : Int) = sz)) := by
  have hd := do_command_generate_batch s m hc
  refine ⟨?_, ?_, ?_, ?_⟩
  · intro h0
    rw [h0]
    rfl
  · intro h0
    rw [hd]
    simp only [h0]
  · intro sz hsz hle
    rw [hd]
    simp only [hsz]
    rw [if_pos hle]
  · intro sz hsz hpos resp s' hok
    rw [hd] at hok
    simp only [hsz] at hok
    rw [if_neg (by omega)] at hok
    split at hok
    · simp at hok
    · rename_i dt hdt
      by_cases hone : s.num_readings = 1
      · rw [if_pos hone] at hok
        split at hok
        · simp at hok
        · rename_i vs st1 hr
          split at hok
          · simp at hok
          · rename_i nm hnm
            have hresp : Resp.batchSingle vs sz nm = resp :=
              Except.ok.inj (congrArg Prod.fst hok)
            rcases randintMany_ok s.low s.high dt sz s.rng vs st1 hr with
              ⟨_, _, hvs, _⟩
            constructor
            · intro _
              refine ⟨vs, nm, hnm, hresp.symm, ?_⟩
              rw [hvs, drawN_fst_length]
              omega
            · intro hne
              exact absurd hone hne
      · rw [if_neg hone] at hok
        split at hok
        · simp at hok
        · rename_i vs st1 hr
          have hresp := Except.ok.inj (congrArg Prod.fst hok)
          constructor
          · intro h1
            exact absurd h1 hone
          · intro _
            refine ⟨_, hresp.symm, ?_⟩
            rw [List.length_map, chunkRows_length]
            omega

/-- C5 witness: with no `size` parameter the default 10 applies, and the
concrete run on the default configuration returns exactly 10 integers
keyed by reading name `"value"`. -/
theorem c5_witness :
    valueToInt ((assocLookup
        ([("command", .vstr "generate_batch")] : List (String × Value))
        "size").getD (.vnum 10)) = some 10 ∧
    ((initState 0).num_readings = 1 →
      ∃ b nm, (initState 0).reading_names.head? = some nm ∧
        (Resp.batchSingle [14, 49, 74, 73, 50, 82, 68, 50, 29, 79] 10 "value") =
          .batchSingle b 10 nm ∧ (b.length : Int) = 10) := by
  have h := c5_generate_batch (initState 0)
    [("command", .vstr "generate_batch")] rfl
  exact ⟨h.1 rfl,
    (h.2.2.2 10 rfl (by norm_num)
      (.batchSingle [14, 49, 74, 73, 50, 82, 68, 50, 29, 79] 10 "value")
      { low := 0, high := 100, num_readings := 1, reading_names := ["value"]
        dtype := "int32", seed := none, rng := 8237903092696572954 } rfl).1⟩

end RandintGen

namespace RandintGen

/-- A first-match lookup on a reversed pair list returns the entry at the
last index bearing the looked-up key. -/
theorem assocLookup_reverse_last {α : Type} (l : List (String × α)) (i : Nat)
    (hi : i < l.length)
    (hlast : ∀ j, ∀ hj : j < l.length, i < j →
      (l.get ⟨j, hj⟩).1 ≠ (l.get ⟨i, hi⟩).1) :
    assocLookup l.reverse (l.get ⟨i, hi⟩).1 = some (l.get ⟨i, hi⟩).2 := by
  induction l using List.reverseRecOn generalizing i with
  | nil => simp at hi
  | append_singleton l p ih =>
    rw [List.reverse_append, List.reverse_singleton, List.singleton_append]
    by_cases hil : i < l.length
    · have hgi : (l ++ [p]).get ⟨i, hi⟩ = l.get ⟨i, hil⟩ := by
        rw [List.get_eq_getElem, List.get_eq_getElem]
        exact List.getElem_append_left hil
      have hlenlt : l.length < (l ++ [p]).length := by simp
      have hgp : (l ++ [p]).get ⟨l.length, hlenlt⟩ = p := by
        rw [List.get_eq_getElem]
        simp
      have hne : p.1 ≠ (l.get ⟨i, hil⟩).1 := by
        have hh := hlast l.length hlenlt hil
        rwa [hgp, hgi] at hh
      rw [hgi]
      simp only [assocLookup]
      rw [if_neg (fun hh => hne hh.symm)]
      refine ih i hil ?_
      intro j hj hij
      have hjlt : j < (l ++ [p]).length := by
        simp
        omega
      have hgj : (l ++ [p]).get ⟨j, hjlt⟩ = l.get ⟨j, hj⟩ := by
        rw [List.get_eq_getElem, List.get_eq_getElem]
        exact List.getElem_append_left hj
      have hh := hlast j hjlt hij
      rwa [hgj, hgi] at hh
    · have hieq : i = l.length := by
        simp at hi
        omega
      subst hieq
      have hgp : (l ++ [p]).get ⟨l.length, hi⟩ = p := by
        rw [List.get_eq_getElem]
        simp
      rw [hgp]
      simp [assocLookup]

/-- C9: when `num_readings > 1` and `reading_names` contains duplicates, the
successful `get_readings` result is a dict whose key set is the set of
distinct names — strictly fewer entries than `num_readings` —, equal to the
Python dict built from the names zipped with exactly the channel draws the
call performs (`drawN` from the current source state), and a lookup of the
name of any channel with no later equally-named channel returns that last
channel's drawn value. -/
theorem c9_duplicate_names (s : GenState) (r : List (String × Int))
    (s' : GenState) (hgt : 1 < s.num_readings)
    (hlen : (s.reading_names.length : Int) = s.num_readings)
    (hdup : ¬ s.reading_names.Nodup)
    (h : getReadings s = .ok (r, s')) :
    (r.map Prod.fst).Nodup ∧
    (∀ k, k ∈ r.map Prod.fst ↔ k ∈ s.reading_names) ∧
    (r.length : Int) < s.num_readings ∧
    r = pyDict (s.reading_names.zip
      (drawN s.low s.high s.num_readings.toNat s.rng).1) ∧
    (∀ i : Nat, ∀ hi : i < s.reading_names.length,
      ∀ hiv : i < (drawN s.low s.high s.num_readings.toNat s.rng).1.length,
      (∀ j, ∀ hj : j < s.reading_names.length, i < j →
        s.reading_names.get ⟨j, hj⟩ ≠ s.reading_names.get ⟨i, hi⟩) →
      assocLookup r (s.reading_names.get ⟨i, hi⟩) =
        some ((drawN s.low s.high s.num_readings.toNat s.rng).1.get ⟨i, hiv⟩)) := by
  rcases getReadings_ok s r s' h with ⟨_, _, _, hmulti⟩
  have hr := hmulti (by omega)
  have hvslen : (drawN s.low s.high s.num_readings.toNat s.rng).1.length =
      s.num_readings.toNat := drawN_fst_length _ _ _ _
  have hmapfst : (s.reading_names.zip
        (drawN s.low s.high s.num_readings.toNat s.rng).1).map Prod.fst =
      s.reading_names :=
    List.map_fst_zip _ _ (by omega)
  refine ⟨?_, ?_, ?_, hr, ?_⟩
  · rw [hr]
    exact nodup_keys_pyDict _
  · intro k
    rw [hr, mem_keys_pyDict, hmapfst]
  · rw [hr, length_pyDict_eq_dedup, hmapfst]
    have hd := dedup_length_lt_of_not_nodup s.reading_names hdup
    omega
  · intro i hi hiv hlast5
    rw [hr, assocLookup_pyDict]
    have hzi : i < (s.reading_names.zip
        (drawN s.low s.high s.num_readings.toNat s.rng).1).length := by
      rw [List.length_zip]
      omega
    have hgz : (s.reading_names.zip
          (drawN s.low s.high s.num_readings.toNat s.rng).1).get ⟨i, hzi⟩ =
        (s.reading_names.get ⟨i, hi⟩,
          (drawN s.low s.high s.num_readings.toNat s.rng).1.get ⟨i, hiv⟩) := by
      simp [List.get_eq_getElem, List.getElem_zip]
    have happ := assocLookup_reverse_last
      (s.reading_names.zip (drawN s.low s.high s.num_readings.toNat s.rng).1)
      i hzi ?_
    · rw [hgz] at happ
      exact happ
    · intro j hj hij
      have hjn : j < s.reading_names.length := by
        rw [List.length_zip] at hj
        omega
      have hjv : j < (drawN s.low s.high s.num_readings.toNat s.rng).1.length := by
        omega
      have hgzj : (s.reading_names.zip
            (drawN s.low s.high s.num_readings.toNat s.rng).1).get ⟨j, hj⟩ =
          (s.reading_names.get ⟨j, hjn⟩,
            (drawN s.low s.high s.num_readings.toNat s.rng).1.get ⟨j, hjv⟩) := by
        simp [List.get_eq_getElem, List.getElem_zip]
      rw [hgzj, hgz]
      exact fun hh => hlast5 j hjn hij hh

/-- C9 witness: names `["a","b","a"]` over `[0,10)` from source state 1 draw
`[8, 7, 3]` and give the dict `{"a": 3, "b": 7}`: two entries for three
channels, keys are the distinct names, and `"a"` holds the value 3 drawn
for the last `"a"` channel (index 2), not the 8 drawn for the first. -/
theorem c9_witness :
    (([("a", 3), ("b", 7)] : List (String × Int)).map Prod.fst).Nodup ∧
    (∀ k, k ∈ ([("a", 3), ("b", 7)] : List (String × Int)).map Prod.fst ↔
      k ∈ (["a", "b", "a"] : List String)) ∧
    ((([("a", 3), ("b", 7)] : List (String × Int)).length : Int) < 3) ∧
    ([("a", 3), ("b", 7)] : List (String × Int)) =
      pyDict ((["a", "b", "a"] : List String).zip (drawN 0 10 3 1).1) ∧
    (∀ i : Nat, ∀ hi : i < (["a", "b", "a"] : List String).length,
      ∀ hiv : i < (drawN 0 10 3 1).1.length,
      (∀ j, ∀ hj : j < (["a", "b", "a"] : List String).length, i < j →
        (["a", "b", "a"] : List String).get ⟨j, hj⟩ ≠
          (["a", "b", "a"] : List String).get ⟨i, hi⟩) →
      assocLookup ([("a", 3), ("b", 7)] : List (String × Int))
          ((["a", "b", "a"] : List String).get ⟨i, hi⟩) =
        some ((drawN 0 10 3 1).1.get ⟨i, hiv⟩)) :=
  c9_duplicate_names
    (⟨0, 10, 3, ["a", "b", "a"], "int32", none, 1⟩ : GenState)
    [("a", 3), ("b", 7)]
    (⟨0, 10, 3, ["a", "b", "a"], "int32", none, 11960119808228829710⟩ : GenState)
    (by norm_num) (by norm_num) (by decide) rfl

end RandintGen
